import Mathlib

/-!
Verification development for the euphony audio library.

The definitions below are a shallow embedding of the TypeScript sources
(latest revision of each file): `src/Analyser.ts`, `src/Controller.ts`,
`src/Playback.ts`, `src/Group.ts`, `src/Euphony.ts`.  Numbers that the
source manipulates as JS doubles are modelled as `ℚ` (all arithmetic the
claims exercise is exact on rationals), except for the logarithm /
exponential used by `calcBandIntervals`, which is modelled over `ℝ`.
Byte arrays coming from the engine (`getByteFrequencyData`) are modelled
as `List ℕ` of values in 0..255; `Float32Array`s are modelled as
`List ℚ`, with JS typed-array semantics: a write at an out-of-range
index is silently dropped (`List.set` already behaves this way).
-/

namespace Euphony

/-- Callback firings observable from `Analyser.updateFrequency`
(`onSignal` / `offSignal` mutable callback fields in `Analyser.ts`). -/
inductive SignalEvent where
  | onSignal
  | offSignal
deriving DecidableEq

/-- State of `Analyser` (`src/Analyser.ts`, latest revision): the engine
node's scalar settings plus the derived arrays.  The raw byte scratch
buffers (`_frequencyBuffer`, `_waveformBuffer`) are not stored: raw engine
data is instead passed to `updateFrequency` directly, mirroring the fact
that `getByteFrequencyData` overwrites the scratch buffer on every call. -/
structure Analyser where
  fftSize : ℕ
  minDecibels : ℚ
  maxDecibels : ℚ
  smoothingTimeConstant : ℚ
  threshold : ℚ
  numberOfBands : ℕ
  bandIntervals : List ℕ
  frequency : List ℚ
  bands : List ℚ
  amplitude : ℚ
  signal : Bool
  waveform : List ℚ
deriving DecidableEq

/-- `frequencyBinCount` getter: the engine reports half of `fftSize`. -/
def Analyser.frequencyBinCount (a : Analyser) : ℕ := a.fftSize / 2

/-- Loop body of `calcBandIntervals` (`Analyser.ts` lines 689-696): each
iteration pushes `Math.floor(intervals[intervals.length - 1] * factor)`.
The accumulator always starts at `[1]`, so `getLast?.getD 1` is exact. -/
noncomputable def bandLoop (factor : ℝ) : ℕ → List ℕ → List ℕ
  | 0, intervals => intervals
  | k + 1, intervals =>
      bandLoop factor k (intervals ++ [⌊((intervals.getLast?.getD 1 : ℕ) : ℝ) * factor⌋₊])

/-- `Analyser.calcBandIntervals` (`Analyser.ts` lines 677-699):
`factor = Math.exp(Math.log(fftSize) / numberOfBands)`, the interval list
starts at `[1]`, and the JS loop `for (i = 1; i < numberOfBands - 1; i++)`
runs `numberOfBands - 2` times (zero times when `numberOfBands ≤ 2`). -/
noncomputable def calcBandIntervals (fftSize numberOfBands : ℕ) : List ℕ :=
  bandLoop (Real.exp (Real.log fftSize / numberOfBands)) (numberOfBands - 2) [1]

/-- Band lookup performed per bin inside `updateFrequency` (lines 634-636):
`this._bandIntervals.findIndex((interval) => interval > i)`.  JS
`findIndex` returns `-1` when no interval exceeds the bin index; that is
modelled as `none`. -/
def bandIdxOfBin (intervals : List ℕ) (i : ℕ) : Option ℕ :=
  List.findIdx? (fun interval => decide (i < interval)) intervals

/-- The `fftSize` setter (`Analyser.ts` lines 369-384).  The guard mirrors
`value < 2**5 || value > 2**15 || !(Math.log2(value) % 1 === 0)`; for a
natural number the last test (integral base-2 logarithm) is equivalent to
`2 ^ Nat.log2 value = value`.  On success the setter resizes the
frequency array (to the new `frequencyBinCount`) and the waveform array
(to the new `fftSize`), discarding old contents; it touches neither
`_bandIntervals` nor `#bands` nor `#numberOfBands`. -/
def Analyser.setFftSize (a : Analyser) (value : ℕ) : Except String Analyser :=
  if value < 2 ^ 5 || 2 ^ 15 < value || !(2 ^ Nat.log2 value == value) then
    Except.error "FFT window must be a power of 2 within bounds of 2^5 and 2^15"
  else
    Except.ok { a with
      fftSize := value
      frequency := List.replicate (value / 2) 0
      waveform := List.replicate value 0 }

/-- Accumulator of the per-bin loop in `updateFrequency`: the running raw
sum and the frequency / band arrays being written. -/
structure FreqAcc where
  sum : ℕ
  frequency : List ℚ
  bands : List ℚ
deriving DecidableEq

/-- One iteration of the loop in `updateFrequency` (lines 626-639) at bin
`i`: add `raw[i]` to the sum, store `raw[i] / 255` in `frequency[i]`, look
up the band by `findIndex` and raise that band to the bin value.  When
`findIndex` returns `-1` the JS statement writes to `bands[-1]`, which on
a `Float32Array` is silently discarded, so the band data is unchanged. -/
def freqStep (intervals : List ℕ) (raw : List ℕ) (acc : FreqAcc) (i : ℕ) : FreqAcc :=
  let r := (raw.get? i).getD 0
  let v : ℚ := (r : ℚ) / 255
  let bands :=
    match bandIdxOfBin intervals i with
    | some b => acc.bands.set b (max ((acc.bands.get? b).getD 0) v)
    | none => acc.bands
  { sum := acc.sum + r, frequency := acc.frequency.set i v, bands := bands }

/-- The signal update at the end of `updateFrequency` (lines 643-656):
given the freshly computed amplitude and the previous signal value,
produce the new signal value (`amplitude >= threshold`) and the callbacks
fired by this call — `onSignal` only on a false→true edge, `offSignal`
only on a true→false edge. -/
def signalStep (threshold amplitude : ℚ) (signal : Bool) : Bool × List SignalEvent :=
  if threshold ≤ amplitude then
    (true, if signal then [] else [SignalEvent.onSignal])
  else
    (false, if signal then [SignalEvent.offSignal] else [])

/-- `Analyser.updateFrequency` (`Analyser.ts` lines 618-657).  `raw` is
the byte frequency data the engine writes into `_frequencyBuffer`.  The
band array is first reset to zeros (`fill(0)`), the loop runs over all
`frequencyBinCount` bins, then `amplitude = sum / frequencyBinCount / 255`
and the edge-triggered signal update (`signalStep`) fires `onSignal` /
`offSignal`.  Returns the updated analyser and the callbacks fired by
this call. -/
def Analyser.updateFrequency (a : Analyser) (raw : List ℕ) :
    Analyser × List SignalEvent :=
  let acc0 : FreqAcc :=
    { sum := 0, frequency := a.frequency, bands := List.replicate a.bands.length 0 }
  let acc := (List.range a.frequencyBinCount).foldl (freqStep a.bandIntervals raw) acc0
  let amplitude : ℚ := (acc.sum : ℚ) / a.frequencyBinCount / 255
  let s := signalStep a.threshold amplitude a.signal
  ({ a with frequency := acc.frequency, bands := acc.bands,
            amplitude := amplitude, signal := s.1 },
   s.2)

/-- A sequence of `updateFrequency` calls, one per raw frame; returns the
final analyser together with the callbacks fired by each call. -/
def Analyser.runUpdates (a : Analyser) : List (List ℕ) → Analyser × List (List SignalEvent)
  | [] => (a, [])
  | raw :: rest =>
    let step := a.updateFrequency raw
    let tail := step.1.runUpdates rest
    (tail.1, step.2 :: tail.2)

/-- The WebAudio connection graph: directed edges between engine node
identifiers.  `AudioNode.connect` appends an edge; `disconnect()` with no
argument removes every outgoing edge of the node. -/
structure AudioGraph where
  edges : List (ℕ × ℕ)
deriving DecidableEq

/-- `output.connect(dest)`: add the edge `a → b`. -/
def connectNodes (g : AudioGraph) (a b : ℕ) : AudioGraph :=
  ⟨g.edges ++ [(a, b)]⟩

/-- `node.disconnect()` with no argument: drop every edge leaving `n`. -/
def disconnectAll (g : AudioGraph) (n : ℕ) : AudioGraph :=
  ⟨g.edges.filter (fun e => e.1 != n)⟩

/-- The wiring part of a `Controller` (`src/Controller.ts` lines 71-87).
The analyser's `input` and `output` are both its underlying engine node
(`Analyser.ts` lines 587-588), so one identifier `analyserId` stands for
both.  The constructor connects the gain node to the analyser's input and
then, via `EuphonyNode.connect` on a plain `AudioNode`, the analyser's
output to `CONTEXT.destination`. -/
structure ControllerModel where
  gainNode : ℕ
  analyserNode : ℕ
deriving DecidableEq

/-- `Controller` constructor wiring: `gain.connect(analyser.input)` then
`analyser.connect(CONTEXT.destination)`. -/
def controllerInit (g : AudioGraph) (destination gainId analyserId : ℕ) :
    ControllerModel × AudioGraph :=
  let g1 := connectNodes g gainId analyserId
  let g2 := connectNodes g1 analyserId destination
  (⟨gainId, analyserId⟩, g2)

/-- The per-source wiring loop of the `Group` constructor
(`src/Group.ts` lines 41-44): for each source, in order,
`source.output.disconnect()` then `source.output.connect(this.input)`. -/
def groupConnectSources (g : AudioGraph) (inputId : ℕ) (outs : List ℕ) : AudioGraph :=
  outs.foldl (fun acc o => connectNodes (disconnectAll acc o) o inputId) g

/-- Sources list held by a `Group` (`#sources`). -/
structure GroupModel where
  sources : List ℕ
deriving DecidableEq

/-- `Group` constructor (`src/Group.ts` lines 29-45): stores the given
sources array as-is and rewires each source's output to the group input
(the group's gain node). -/
def groupInit (g : AudioGraph) (inputId : ℕ) (outs : List ℕ) :
    GroupModel × AudioGraph :=
  (⟨outs⟩, groupConnectSources g inputId outs)

/-- A decoded audio buffer (WebAudio `AudioBuffer`): channel count,
frame count, sample rate and per-channel sample data. -/
structure AudioBuffer where
  numberOfChannels : ℕ
  length : ℕ
  sampleRate : ℚ
  channels : List (List ℚ)
deriving DecidableEq

/-- `CONTEXT.createBuffer(ch, len, rate)`: freshly allocated buffers are
silent (all samples 0.0). -/
def createBuffer (ch len : ℕ) (rate : ℚ) : AudioBuffer :=
  ⟨ch, len, rate, List.replicate ch (List.replicate len 0)⟩

/-- Shared semantics of `copyFromChannel` / `copyToChannel`: copy
`min(dest.length, src.length)` leading samples of `src` over `dest`,
leaving the rest of `dest` as it was. -/
def copyInto (dest src : List ℚ) : List ℚ :=
  (List.range dest.length).map fun k => (src[k]?).getD ((dest[k]?).getD 0)

/-- Engine commands issued by `Playback` methods, in issue order:
`start(when, offset)` and `stop(when)` on the underlying buffer-source
node, and the source-node swap performed by `_replaceSource`. -/
inductive AudioCmd where
  | start (when offset : ℚ)
  | stopAt (when : ℚ)
  | sourceReplaced
deriving DecidableEq

/-- State of `Playback` (`src/Playback.ts`, latest revision): the stored
decoded buffer plus the scheduling bookkeeping fields. -/
structure Playback where
  buffer : AudioBuffer
  playing : Bool
  startTime : ℚ
  pauseTime : ℚ
  loop : Bool
deriving DecidableEq

/-- The JS `%` operator on finite numbers: remainder with the sign of the
dividend (truncated division).  The source only applies it with a
positive modulus (`this.length`); JS `x % 0` would be `NaN`, which has no
rational counterpart, and no claim exercises that case. -/
def jsMod (a b : ℚ) : ℚ :=
  if 0 ≤ a / b then a - b * ⌊a / b⌋ else a - b * ⌈a / b⌉

/-- `Playback.play` (`Playback.ts` lines 391-413).  `now` is
`CONTEXT.currentTime`.  No-op when already playing; otherwise computes
`adjustedDelay = now + delay`, takes the resume offset
`(pauseTime - startTime) % length` when `pauseTime` is truthy (nonzero)
and clears `pauseTime`, schedules `start(adjustedDelay, offset)` and
records `startTime = adjustedDelay - offset`. -/
def Playback.play (p : Playback) (now delay : ℚ) : Playback × List AudioCmd :=
  if !p.playing then
    let adjustedDelay := now + delay
    let offset := if p.pauseTime ≠ 0
      then jsMod (p.pauseTime - p.startTime) (p.buffer.length : ℚ) else 0
    let pauseTime := if p.pauseTime ≠ 0 then 0 else p.pauseTime
    ({ p with playing := true, pauseTime := pauseTime,
              startTime := adjustedDelay - offset },
     [AudioCmd.start adjustedDelay offset])
  else (p, [])

/-- `Playback.pause` (lines 420-436): no-op unless playing; otherwise
schedules `stop(adjustedDelay)`, records it as `pauseTime`, and replaces
the single-use source node. -/
def Playback.pause (p : Playback) (now delay : ℚ) : Playback × List AudioCmd :=
  if p.playing then
    let adjustedDelay := now + delay
    ({ p with playing := false, pauseTime := adjustedDelay },
     [AudioCmd.stopAt adjustedDelay, AudioCmd.sourceReplaced])
  else (p, [])

/-- `Playback.stop` (lines 443-456): no-op unless playing; otherwise
schedules `stop(adjustedDelay)` and replaces the source node.  Unlike
`pause` it does not record `pauseTime`. -/
def Playback.stop (p : Playback) (now delay : ℚ) : Playback × List AudioCmd :=
  if p.playing then
    ({ p with playing := false },
     [AudioCmd.stopAt (now + delay), AudioCmd.sourceReplaced])
  else (p, [])

/-- `Playback.getPlaybackTime` (lines 461-469). -/
def Playback.getPlaybackTime (p : Playback) (now : ℚ) : ℚ :=
  if p.playing then jsMod (now - p.startTime) (p.buffer.length : ℚ)
  else if p.pauseTime ≠ 0 then jsMod (p.pauseTime - p.startTime) (p.buffer.length : ℚ)
  else 0

/-- Outcome of the `fetch(url)` stage of `Playback.load`: a transport
error, a response with `ok` false, or a successful response. -/
inductive FetchOutcome where
  | transportError
  | notOk
  | ok
deriving DecidableEq

/-- Outcome of `CONTEXT.decodeAudioData` on the fetched bytes. -/
inductive DecodeOutcome where
  | decodeError
  | decoded (buffer : AudioBuffer)
deriving DecidableEq

/-- Callbacks and side effects observable from `Playback.load`. -/
inductive LoadEvent where
  | onLoad
  | onError
  | sourceRebuilt
deriving DecidableEq

/-- Error message produced by the `catch` stage of `load` (the source
appends the underlying error text, which is irrelevant here). -/
def loadFailureMsg : String := "There was a problem with fetching/loading the audio"

/-- `Playback.load` (`Playback.ts` lines 352-383), flattened over the
outcomes of its two asynchronous stages.  The promise chain routes any
fetch failure (transport error or `!response.ok`) into the `catch`
handler, which calls `onError()` and rethrows, rejecting the returned
promise.  The decode stage, however, invokes `decodeAudioData` in
callback form with a success callback only, and does not return its
promise from the `.then`, so the chain resolves immediately: a decode
failure triggers no callback at all and the returned promise still
resolves.  On a successful decode the stored buffer is swapped, the
source node is rebuilt (`_replaceSource`) and `onLoad()` runs. -/
def Playback.load (p : Playback) (fetch : FetchOutcome) (decode : DecodeOutcome) :
    Playback × List LoadEvent × Except String Unit :=
  match fetch with
  | FetchOutcome.transportError =>
      (p, [LoadEvent.onError], Except.error loadFailureMsg)
  | FetchOutcome.notOk =>
      (p, [LoadEvent.onError], Except.error loadFailureMsg)
  | FetchOutcome.ok =>
      match decode with
      | DecodeOutcome.decoded buffer =>
          ({ p with buffer := buffer },
           [LoadEvent.sourceRebuilt, LoadEvent.onLoad], Except.ok ())
      | DecodeOutcome.decodeError =>
          (p, [], Except.ok ())

/-- The channel-copy loop of `adjustBuffer` (lines 502-507).  The single
scratch `transferBuffer` (initially `new Float32Array(length)`, i.e.
zeros) is reused across channels, so it is threaded through the loop; the
new channel ends up equal to the scratch contents because
`copyToChannel` overwrites all `length` frames of the freshly allocated
channel. -/
def adjustChannelsGo (oldChannels : List (List ℚ)) (transfer : List ℚ) :
    List ℕ → List (List ℚ)
  | [] => []
  | i :: rest =>
    let t := copyInto transfer ((oldChannels[i]?).getD [])
    t :: adjustChannelsGo oldChannels t rest

/-- `Playback.adjustBuffer` (`Playback.ts` lines 493-513): build a
replacement buffer with the same channel count and sample rate but the
given length, copy each channel through the scratch array, store the
replacement and rebuild the source node. -/
def Playback.adjustBuffer (p : Playback) (length : ℕ) : Playback × List AudioCmd :=
  let b := p.buffer
  let channels := adjustChannelsGo b.channels (List.replicate length 0)
      (List.range b.numberOfChannels)
  ({ p with buffer :=
      { numberOfChannels := b.numberOfChannels, length := length,
        sampleRate := b.sampleRate, channels := channels } },
   [AudioCmd.sourceReplaced])

/-- A `Group` tree: the sources array of a group holds `Playback`s and
nested `Group`s (the only concrete `Controller`s in the library). -/
inductive ENode where
  | playback : Playback → ENode
  | group : List ENode → ENode

/- `Group._getMaxBufferLength` (`Group.ts` lines 114-128), split into
the per-node measure and the accumulating `forEach` loop
(`maxLength = Math.max(result, maxLength)`, starting from 0). -/
mutual
def treeMaxLen : ENode → ℕ
  | ENode.playback p => p.buffer.length
  | ENode.group ss => listMaxLen 0 ss
def listMaxLen (acc : ℕ) : List ENode → ℕ
  | [] => acc
  | t :: ts => listMaxLen (max (treeMaxLen t) acc) ts
end

/- The apply pass of `Group.sync` (lines 101-108) at a forced length:
`adjustBuffer(length)` on each `Playback`, `sync(length)` into each
nested `Group`. -/
mutual
def syncTreeAt (len : ℕ) : ENode → ENode
  | ENode.playback p => ENode.playback (p.adjustBuffer len).1
  | ENode.group ss => ENode.group (syncListAt len ss)
def syncListAt (len : ℕ) : List ENode → List ENode
  | [] => []
  | t :: ts => syncTreeAt len t :: syncListAt len ts
end

/-- `Group.sync` (`Group.ts` lines 88-109) on a group with the given
sources: with no argument it first measures `_getMaxBufferLength()`, with
a forced length it uses that; then it runs the apply pass. -/
def groupSync (forced : Option ℕ) (sources : List ENode) : List ENode :=
  let length := match forced with
    | none => listMaxLen 0 sources
    | some l => l
  syncListAt length sources

/- Buffer lengths of every descendant `Playback`, in traversal order. -/
mutual
def treeLeafLens : ENode → List ℕ
  | ENode.playback p => [p.buffer.length]
  | ENode.group ss => listLeafLens ss
def listLeafLens : List ENode → List ℕ
  | [] => []
  | t :: ts => treeLeafLens t ++ listLeafLens ts
end

/-! ### Concrete fixtures -/

/-- An `Analyser` in the state produced by the constructor for
`fftSize = 32`, `numberOfBands = 2` and default options otherwise
(`threshold = 0.2`): `calcBandIntervals` runs its loop zero times for two
bands, so `_bandIntervals = [1]`, `#bands` has length 2, and the derived
arrays are zero-initialised with `signal = false`. -/
def mkA : Analyser :=
  { fftSize := 32, minDecibels := -100, maxDecibels := -30,
    smoothingTimeConstant := 4/5, threshold := 1/5, numberOfBands := 2,
    bandIntervals := [1], frequency := List.replicate 16 0,
    bands := [0, 0], amplitude := 0, signal := false,
    waveform := List.replicate 32 0 }

/-- Raw byte frame with sum 408 over 16 bins: amplitude 408/16/255 = 0.1. -/
def rawTenth : List ℕ := [255, 153] ++ List.replicate 14 0

/-- Raw byte frame with sum 1224 over 16 bins: amplitude 0.3. -/
def rawThreeTenths : List ℕ := [255, 255, 255, 255, 204] ++ List.replicate 11 0

/-- Raw byte frame with sum 1020 over 16 bins: amplitude 0.25. -/
def rawQuarter : List ℕ := [255, 255, 255, 255] ++ List.replicate 12 0

/-- Raw byte frame whose only energy sits in bin 1 (full scale 255). -/
def rawBin1 : List ℕ := [0, 255] ++ List.replicate 14 0

/-- For two bands the interval loop runs zero times: the stored intervals
are exactly `[1]`, whatever the factor. -/
theorem calcBandIntervals_two : calcBandIntervals 32 2 = [1] := by
  simp [calcBandIntervals, bandLoop]

/-! ### Claims about the Analyser -/

/-- C1 (code_bug evidence).  The claim says every bin in
`[0, frequencyBinCount)` is assigned to exactly one band in
`[0, numberOfBands)`, the final band receiving all bins at or above the
last computed boundary.  The code instead computes the band index with
`findIndex`, which returns `-1` for every bin at or above the last
boundary; the resulting write to `bands[-1]` on a `Float32Array` is
silently discarded, contradicting the source's own comment ("anything not
in previous bands goes in the final band").  At `fftSize = 32`,
`numberOfBands = 2` the stored intervals are `[1]`; a full-scale bin 1 is
mapped to no band (`none`), and after `updateFrequency` both bands are
still 0 even though `frequency[1] = 1.0`.  Only `bands.length =
numberOfBands` holds. -/
theorem updateFrequency_drops_bins_beyond_last_interval :
    calcBandIntervals 32 2 = [1] ∧
    mkA.bandIntervals = [1] ∧ mkA.numberOfBands = 2 ∧ mkA.bands.length = 2 ∧
    bandIdxOfBin mkA.bandIntervals 1 = none ∧
    (mkA.updateFrequency rawBin1).1.frequency.get? 1 = some 1 ∧
    (mkA.updateFrequency rawBin1).1.bands = [0, 0] := by
  refine ⟨calcBandIntervals_two, rfl, rfl, rfl, ?_, ?_, ?_⟩
  · norm_num [mkA, bandIdxOfBin, List.findIdx?]
  · norm_num [mkA, rawBin1, Analyser.updateFrequency, Analyser.frequencyBinCount,
      freqStep, bandIdxOfBin, List.range_succ, List.findIdx?, List.replicate]
  · norm_num [mkA, rawBin1, Analyser.updateFrequency, Analyser.frequencyBinCount,
      freqStep, bandIdxOfBin, List.range_succ, List.findIdx?, List.replicate]

/-- Behaviour of the edge-triggered signal update as a function of the
previous signal value and the new amplitude. -/
theorem signalStep_spec (thr amp : ℚ) (sig : Bool) :
    ((signalStep thr amp sig).2 = [SignalEvent.onSignal] ↔
      (sig = false ∧ (signalStep thr amp sig).1 = true)) ∧
    ((signalStep thr amp sig).2 = [SignalEvent.offSignal] ↔
      (sig = true ∧ (signalStep thr amp sig).1 = false)) ∧
    ((signalStep thr amp sig).2 = [] ↔ (signalStep thr amp sig).1 = sig) := by
  unfold signalStep
  split <;> cases sig <;> simp

/-- C2 (confirmed).  Each `updateFrequency` call fires `onSignal` exactly
once on a below→at-or-above threshold crossing, `offSignal` exactly once
on the opposite crossing, and nothing when the signal state is unchanged;
with threshold 0.2 and the amplitude sequence
[0.1, 0.3, 0.3, 0.1, 0.25] exactly three callbacks fire: `onSignal`
after sample 2, `offSignal` after sample 4, `onSignal` after sample 5. -/
theorem updateFrequency_edge_triggered_signal :
    (∀ (a : Analyser) (raw : List ℕ),
      ((a.updateFrequency raw).2 = [SignalEvent.onSignal] ↔
        (a.signal = false ∧ (a.updateFrequency raw).1.signal = true)) ∧
      ((a.updateFrequency raw).2 = [SignalEvent.offSignal] ↔
        (a.signal = true ∧ (a.updateFrequency raw).1.signal = false)) ∧
      ((a.updateFrequency raw).2 = [] ↔ (a.updateFrequency raw).1.signal = a.signal)) ∧
    mkA.threshold = 1/5 ∧ mkA.signal = false ∧
    (mkA.updateFrequency rawTenth).1.amplitude = 1/10 ∧
    (mkA.updateFrequency rawThreeTenths).1.amplitude = 3/10 ∧
    (mkA.updateFrequency rawQuarter).1.amplitude = 1/4 ∧
    (mkA.runUpdates [rawTenth, rawThreeTenths, rawThreeTenths, rawTenth, rawQuarter]).2 =
      [[], [SignalEvent.onSignal], [], [SignalEvent.offSignal], [SignalEvent.onSignal]] := by
  refine ⟨fun a raw => signalStep_spec _ _ _, rfl, rfl, ?_, ?_, ?_, ?_⟩ <;>
    norm_num [mkA, rawTenth, rawThreeTenths, rawQuarter, Analyser.runUpdates,
      Analyser.updateFrequency, Analyser.frequencyBinCount, signalStep,
      freqStep, bandIdxOfBin, List.range_succ, List.findIdx?, List.replicate]

/-- Exact interval list for `fftSize = 4096`, `numberOfBands = 3`: the
factor is the real cube root of 4096, i.e. exactly 16. -/
theorem calcBandIntervals_4096 : calcBandIntervals 4096 3 = [1, 16] := by
  have h : Real.exp (Real.log (4096:ℝ) / (3:ℝ)) = 16 := by
    rw [show (4096:ℝ) = (16:ℝ) ^ (3:ℕ) by norm_num, Real.log_pow]
    push_cast
    rw [show (3:ℝ) * Real.log 16 / 3 = Real.log 16 by ring, Real.exp_log (by norm_num)]
  simp only [calcBandIntervals]
  norm_num [h, bandLoop]

/-- Exact interval list for `fftSize = 32768`, `numberOfBands = 3`: the
factor is the real cube root of 32768, i.e. exactly 32. -/
theorem calcBandIntervals_32768 : calcBandIntervals 32768 3 = [1, 32] := by
  have h : Real.exp (Real.log (32768:ℝ) / (3:ℝ)) = 32 := by
    rw [show (32768:ℝ) = (32:ℝ) ^ (3:ℕ) by norm_num, Real.log_pow]
    push_cast
    rw [show (3:ℝ) * Real.log 32 / 3 = Real.log 32 by ring, Real.exp_log (by norm_num)]
  simp only [calcBandIntervals]
  norm_num [h, bandLoop]

/-- An `Analyser` as constructed with `fftSize = 4096`,
`numberOfBands = 3` (so `_bandIntervals = calcBandIntervals 4096 3 =
[1, 16]`) and default options otherwise. -/
def a4096 : Analyser :=
  { fftSize := 4096, minDecibels := -100, maxDecibels := -30,
    smoothingTimeConstant := 4/5, threshold := 1/5, numberOfBands := 3,
    bandIntervals := [1, 16], frequency := List.replicate 2048 0,
    bands := [0, 0, 0], amplitude := 0, signal := false,
    waveform := List.replicate 4096 0 }

/-- The state after `a4096.fftSize = 32768`: frequency and waveform
arrays resized, everything else untouched. -/
def a4096After : Analyser :=
  { a4096 with fftSize := 32768, frequency := List.replicate 16384 0,
               waveform := List.replicate 32768 0 }

/-- Evaluating the `fftSize` setter on `a4096` at 32768 succeeds and
yields `a4096After`. -/
theorem setFftSize_a4096 : a4096.setFftSize 32768 = Except.ok a4096After := by
  norm_num [a4096, a4096After, Analyser.setFftSize, Nat.log2]

/-- C3 (counterexample).  The claim says a change of `fftSize` recomputes
the band intervals via `calcBandIntervals`.  Starting from the consistent
state `a4096` (`bandIntervals = calcBandIntervals 4096 3`), setting
`fftSize` to 32768 leaves `bandIntervals = [1, 16]`, while
`calcBandIntervals` at the new size yields `[1, 32]`: the setter does not
recompute the intervals (and does not touch the bands array). -/
theorem setFftSize_stale_intervals_cx :
    a4096.bandIntervals = calcBandIntervals a4096.fftSize a4096.numberOfBands ∧
    a4096.setFftSize 32768 = Except.ok a4096After ∧
    a4096After.fftSize = 32768 ∧
    a4096After.numberOfBands = 3 ∧
    a4096After.bandIntervals = [1, 16] ∧
    calcBandIntervals a4096After.fftSize a4096After.numberOfBands = [1, 32] ∧
    a4096After.bandIntervals ≠ calcBandIntervals a4096After.fftSize a4096After.numberOfBands := by
  refine ⟨calcBandIntervals_4096.symm, setFftSize_a4096, rfl, rfl, rfl, ?_, ?_⟩
  · exact calcBandIntervals_32768
  · rw [show a4096After.fftSize = 32768 from rfl,
        show a4096After.numberOfBands = 3 from rfl, calcBandIntervals_32768]
    decide

/-- C3 (amended).  Whenever `fftSize` is changed (successfully), the
frequency and waveform arrays are resized to the new sizes with stale
data discarded (freshly zeroed), but the band intervals are NOT
recomputed and the bands array and band count are left unchanged. -/
theorem setFftSize_resizes_arrays_keeps_intervals :
    ∀ (a a2 : Analyser) (value : ℕ), a.setFftSize value = Except.ok a2 →
      a2.fftSize = value ∧
      a2.frequency = List.replicate (value / 2) 0 ∧
      a2.waveform = List.replicate value 0 ∧
      a2.bandIntervals = a.bandIntervals ∧
      a2.bands = a.bands ∧
      a2.numberOfBands = a.numberOfBands := by
  intro a a2 value h
  unfold Analyser.setFftSize at h
  split at h
  · simp at h
  · injection h with h
    subst h
    exact ⟨rfl, rfl, rfl, rfl, rfl, rfl⟩

/-- Witness for the amended C3 theorem at the concrete input `a4096`,
`value = 32768`. -/
theorem setFftSize_resizes_arrays_keeps_intervals_witness :
    a4096.setFftSize 32768 = Except.ok a4096After ∧
    (a4096After.fftSize = 32768 ∧
     a4096After.frequency = List.replicate (32768 / 2) 0 ∧
     a4096After.waveform = List.replicate 32768 0 ∧
     a4096After.bandIntervals = a4096.bandIntervals ∧
     a4096After.bands = a4096.bands ∧
     a4096After.numberOfBands = a4096.numberOfBands) :=
  ⟨setFftSize_a4096,
   setFftSize_resizes_arrays_keeps_intervals a4096 a4096After 32768 setFftSize_a4096⟩

/-! ### Claims about Playback scheduling -/

/-- A `Playback` in the Paused state: `pause` was called while playing,
so `playing = false` and `pauseTime` holds the scheduled stop time (12);
the track had been started with `startTime = 10`; the buffer holds 4
frames. -/
def pPaused : Playback :=
  { buffer := createBuffer 1 4 44100, playing := false,
    startTime := 10, pauseTime := 12, loop := false }

/-- A `Playback` in the Playing state (`pauseTime` cleared by `play`). -/
def pPlaying : Playback :=
  { buffer := createBuffer 1 4 44100, playing := true,
    startTime := 5, pauseTime := 0, loop := false }

/-- C4 (counterexample).  The claim says `stop` on a Paused playback
moves it to Stopped with the pause offset forgotten, so a subsequent
`play` starts from offset 0 and `getPlaybackTime` at the new start is 0.
In the source `stop` is guarded by `if (this._playing)`, and a paused
playback has `_playing === false`: the call is a complete no-op, the
pause offset survives, and the subsequent `play` resumes from offset
`(pauseTime - startTime) % length = 2`, where `getPlaybackTime` returns
2, not 0. -/
theorem stop_from_paused_keeps_offset_cx :
    pPaused.playing = false ∧ pPaused.pauseTime ≠ 0 ∧
    pPaused.stop 20 (1/10) = (pPaused, []) ∧
    ((pPaused.stop 20 (1/10)).1.play 30 (1/10)).2 = [AudioCmd.start (301/10) 2] ∧
    (((pPaused.stop 20 (1/10)).1.play 30 (1/10)).1).getPlaybackTime (301/10) = 2 ∧
    (((pPaused.stop 20 (1/10)).1.play 30 (1/10)).1).getPlaybackTime (301/10) ≠ 0 := by
  refine ⟨rfl, by norm_num [pPaused], ?_, ?_, ?_, ?_⟩ <;>
    norm_num [pPaused, Playback.stop, Playback.play, Playback.getPlaybackTime,
      jsMod, createBuffer]

/-- C4 (amended).  For a Playback in the Paused state (`playing = false`,
`pauseTime` nonzero), `stop(delay)` is a no-op: the state is returned
unchanged and nothing is scheduled; consequently the pause offset is
retained and a subsequent `play` resumes from
`(pauseTime - startTime) % bufferLength` rather than from 0.  (Only
`stop` while Playing forgets the offset, since `pauseTime` is 0 there.) -/
theorem stop_noop_when_paused :
    ∀ (p : Playback) (now delay now2 delay2 : ℚ),
      p.playing = false → p.pauseTime ≠ 0 →
      p.stop now delay = (p, []) ∧
      ((p.stop now delay).1.play now2 delay2).2 =
        [AudioCmd.start (now2 + delay2)
          (jsMod (p.pauseTime - p.startTime) (p.buffer.length : ℚ))] := by
  intro p now delay now2 delay2 h1 h2
  have hstop : p.stop now delay = (p, []) := by
    unfold Playback.stop
    simp [h1]
  refine ⟨hstop, ?_⟩
  rw [hstop]
  unfold Playback.play
  simp [h1, h2]

/-- Witness for the amended C4 theorem at the Paused fixture. -/
theorem stop_noop_when_paused_witness :
    pPaused.stop 20 (1/10) = (pPaused, []) ∧
    ((pPaused.stop 20 (1/10)).1.play 30 (1/10)).2 =
      [AudioCmd.start (30 + 1/10)
        (jsMod (pPaused.pauseTime - pPaused.startTime) (pPaused.buffer.length : ℚ))] :=
  stop_noop_when_paused pPaused 20 (1/10) 30 (1/10) rfl (by norm_num [pPaused])

/-- C5 (confirmed).  `play` on a Playback that is already playing is a
no-op: the state (including `startTime` and `pauseTime`) is unchanged
and nothing is scheduled; hence after any `play`, a second `play` with no
intervening `pause`/`stop` leaves the state fixed and schedules no second
start — `play; play` is equivalent to `play`. -/
theorem play_when_playing_noop :
    ∀ (p : Playback) (t1 d1 t2 d2 : ℚ),
      (p.playing = true → p.play t1 d1 = (p, [])) ∧
      (p.play t1 d1).1.playing = true ∧
      (p.play t1 d1).1.play t2 d2 = ((p.play t1 d1).1, []) := by
  intro p t1 d1 t2 d2
  have hplaying : (p.play t1 d1).1.playing = true := by
    unfold Playback.play
    by_cases hp : p.playing <;> simp [hp]
  refine ⟨?_, hplaying, ?_⟩
  · intro h
    unfold Playback.play
    simp [h]
  · rw [Playback.play]
    simp [hplaying]

/-- Witness for C5 at the Playing fixture. -/
theorem play_when_playing_noop_witness :
    pPlaying.play 7 (1/10) = (pPlaying, []) :=
  (play_when_playing_noop pPlaying 7 (1/10) 8 (1/10)).1 rfl

/-! ### Claims about Playback.load and Playback.adjustBuffer -/

/-- A freshly constructed `Playback` (constructor lines 323-343: a
1-channel, 1-frame silent buffer, not playing). -/
def pFresh : Playback :=
  { buffer := createBuffer 1 1 44100, playing := false,
    startTime := 0, pauseTime := 0, loop := false }

/-- C6 (counterexample).  The claim says every `load` failure — network
or decode — invokes `onError` and propagates the failure to the caller.
For a decode failure the source invokes `decodeAudioData` with a success
callback only and never awaits its promise, so the failure is invisible:
no callback fires and `load` resolves successfully. -/
theorem load_decode_failure_silent_cx :
    pFresh.load FetchOutcome.ok DecodeOutcome.decodeError = (pFresh, [], Except.ok ()) ∧
    LoadEvent.onError ∉ (pFresh.load FetchOutcome.ok DecodeOutcome.decodeError).2.1 ∧
    (pFresh.load FetchOutcome.ok DecodeOutcome.decodeError).2.2 ≠ Except.error loadFailureMsg := by
  refine ⟨rfl, ?_, ?_⟩ <;> simp [Playback.load]

/-- C6 (amended).  Network failures (a transport error or a non-success
response) invoke `onError` and propagate the failure to the caller (both
happen).  On a successful fetch and decode the buffer is swapped, the
source is rebuilt and `onLoad` is invoked.  A decode failure, however, is
silent: no callback fires, the buffer is unchanged and `load` resolves
successfully instead of propagating the failure. -/
theorem load_outcome_spec :
    ∀ (p : Playback) (b : AudioBuffer) (d : DecodeOutcome),
      p.load FetchOutcome.transportError d =
        (p, [LoadEvent.onError], Except.error loadFailureMsg) ∧
      p.load FetchOutcome.notOk d =
        (p, [LoadEvent.onError], Except.error loadFailureMsg) ∧
      p.load FetchOutcome.ok (DecodeOutcome.decoded b) =
        ({ p with buffer := b }, [LoadEvent.sourceRebuilt, LoadEvent.onLoad], Except.ok ()) ∧
      p.load FetchOutcome.ok DecodeOutcome.decodeError = (p, [], Except.ok ()) :=
  fun _ _ _ => ⟨rfl, rfl, rfl, rfl⟩

/-- Length of the scratch-copy result. -/
theorem copyInto_length (dest src : List ℚ) : (copyInto dest src).length = dest.length := by
  simp [copyInto]

/-- Pointwise value of the scratch-copy result. -/
theorem copyInto_getElem? (dest src : List ℚ) (k : ℕ) (hk : k < dest.length) :
    (copyInto dest src)[k]? = some ((src[k]?).getD ((dest[k]?).getD 0)) := by
  simp [copyInto, List.getElem?_map, List.getElem?_range hk]

/-- Copying a channel of length `M` over a scratch buffer that is zero at
all indices ≥ `M` gives the same result as copying over a fresh zero
buffer: the reuse of `transferBuffer` across channels is invisible. -/
theorem copyInto_congr (L M : ℕ) (transfer ch : List ℚ)
    (hlen : transfer.length = L)
    (hzero : ∀ k, M ≤ k → (transfer[k]?).getD 0 = 0)
    (hch : ch.length = M) :
    copyInto transfer ch = copyInto (List.replicate L 0) ch := by
  apply List.ext_getElem?
  intro k
  by_cases hkL : k < L
  · rw [copyInto_getElem? _ _ _ (by rw [hlen]; exact hkL),
        copyInto_getElem? _ _ _ (by simp [hkL])]
    by_cases hkM : k < M
    · rw [List.getElem?_eq_getElem (by omega)]
      simp
    · have hnone : ch[k]? = none := List.getElem?_eq_none (by omega)
      rw [hnone]
      simp [hzero k (by omega), List.getElem?_replicate, hkL]
  · rw [List.getElem?_eq_none (by rw [copyInto_length, hlen]; omega),
        List.getElem?_eq_none (by rw [copyInto_length, List.length_replicate]; omega)]

/-- The scratch buffer stays zero at indices ≥ `M` after copying a
channel of length `M` into it. -/
theorem copyInto_zero_tail (L M : ℕ) (transfer ch : List ℚ)
    (hlen : transfer.length = L)
    (hzero : ∀ k, M ≤ k → (transfer[k]?).getD 0 = 0)
    (hch : ch.length = M) :
    ∀ k, M ≤ k → ((copyInto transfer ch)[k]?).getD 0 = 0 := by
  intro k hk
  by_cases hkL : k < L
  · rw [copyInto_getElem? _ _ _ (by rw [hlen]; exact hkL)]
    have hnone : ch[k]? = none := List.getElem?_eq_none (by omega)
    simp [hnone, hzero k hk]
  · rw [List.getElem?_eq_none (by rw [copyInto_length, hlen]; omega)]
    rfl

/-- When all source channels have the same length `M`, the threaded
scratch buffer never leaks data between channels: the channel-copy loop
is equivalent to copying every channel over a fresh zero buffer. -/
theorem adjustChannelsGo_eq (old : List (List ℚ)) (L M : ℕ) :
    ∀ (idxs : List ℕ) (transfer : List ℚ),
      transfer.length = L →
      (∀ k, M ≤ k → (transfer[k]?).getD 0 = 0) →
      (∀ i ∈ idxs, ((old[i]?).getD []).length = M) →
      adjustChannelsGo old transfer idxs =
        idxs.map (fun i => copyInto (List.replicate L 0) ((old[i]?).getD [])) := by
  intro idxs
  induction idxs with
  | nil => intro transfer _ _ _; rfl
  | cons i rest ih =>
    intro transfer hlen hzero hchans
    have hchi : ((old[i]?).getD []).length = M := hchans i (by simp)
    have hcongr := copyInto_congr L M transfer ((old[i]?).getD []) hlen hzero hchi
    have htail := copyInto_zero_tail L M transfer ((old[i]?).getD []) hlen hzero hchi
    have hlen2 : (copyInto transfer ((old[i]?).getD [])).length = L := by
      rw [copyInto_length, hlen]
    simp only [adjustChannelsGo, List.map]
    refine congrArg₂ _ hcongr ?_
    exact ih (copyInto transfer ((old[i]?).getD [])) hlen2 htail
      (fun j hj => hchans j (by simp [hj]))

/-- C7 (confirmed).  For a buffer whose channel count matches its channel
data and whose channels all have length `M = buffer.length`,
`adjustBuffer L` produces a buffer of length exactly `L` with the same
channel count and sample rate; for every channel, samples at indices
`k < M` are preserved and samples at `M ≤ k < L` are silence (0). -/
theorem adjustBuffer_spec :
    ∀ (p : Playback) (L : ℕ),
      p.buffer.numberOfChannels = p.buffer.channels.length →
      (∀ ch ∈ p.buffer.channels, ch.length = p.buffer.length) →
      (p.adjustBuffer L).1.buffer.length = L ∧
      (p.adjustBuffer L).1.buffer.numberOfChannels = p.buffer.numberOfChannels ∧
      (p.adjustBuffer L).1.buffer.sampleRate = p.buffer.sampleRate ∧
      (p.adjustBuffer L).1.buffer.channels.length = p.buffer.channels.length ∧
      (∀ ch ∈ (p.adjustBuffer L).1.buffer.channels, ch.length = L) ∧
      (∀ j k, j < p.buffer.channels.length → k < L →
        (((p.adjustBuffer L).1.buffer.channels[j]?).getD [])[k]? =
          (if k < p.buffer.length
           then some ((((p.buffer.channels[j]?).getD [])[k]?).getD 0)
           else some 0)) := by
  intro p L hn hunif
  have hchan : ∀ i ∈ List.range p.buffer.numberOfChannels,
      ((p.buffer.channels[i]?).getD []).length = p.buffer.length := by
    intro i hi
    rw [List.mem_range] at hi
    have hi2 : i < p.buffer.channels.length := hn ▸ hi
    rw [List.getElem?_eq_getElem hi2]
    exact hunif _ (List.getElem_mem hi2)
  have hchannels : (p.adjustBuffer L).1.buffer.channels =
      (List.range p.buffer.numberOfChannels).map
        (fun i => copyInto (List.replicate L 0) ((p.buffer.channels[i]?).getD [])) :=
    adjustChannelsGo_eq p.buffer.channels L p.buffer.length
      (List.range p.buffer.numberOfChannels) (List.replicate L 0)
      (by simp)
      (by intro k _; rw [List.getElem?_replicate]; split <;> rfl)
      hchan
  refine ⟨rfl, rfl, rfl, ?_, ?_, ?_⟩
  · rw [hchannels]
    simp [hn]
  · intro ch hch
    rw [hchannels] at hch
    simp only [List.mem_map] at hch
    obtain ⟨i, _, rfl⟩ := hch
    rw [copyInto_length, List.length_replicate]
  · intro j k hj hk
    rw [hchannels]
    have hjn : j < p.buffer.numberOfChannels := hn ▸ hj
    rw [List.getElem?_map, List.getElem?_range hjn]
    simp only [Option.map_some', Option.getD_some]
    rw [copyInto_getElem? _ _ _ (by simp [hk])]
    rw [List.getElem?_replicate, if_pos hk]
    simp only [Option.getD_some]
    by_cases hkM : k < p.buffer.length
    · rw [if_pos hkM]
    · rw [if_neg hkM]
      have hnone : ((p.buffer.channels[j]?).getD [])[k]? = none :=
        List.getElem?_eq_none (by rw [hchan j (List.mem_range.2 hjn)]; omega)
      rw [hnone]
      rfl

/-- A `Playback` holding a 2-channel, 3-frame buffer with known samples. -/
def pBuf : Playback :=
  { buffer := ⟨2, 3, 44100, [[1, 2, 3], [4, 5, 6]]⟩, playing := false,
    startTime := 0, pauseTime := 0, loop := false }

/-- Witness for C7 at `pBuf` grown to length 5: the new buffer has length
5 and 2 channels, sample (0,1) is preserved and sample (1,4) is padded
silence. -/
theorem adjustBuffer_spec_witness :
    (pBuf.adjustBuffer 5).1.buffer.length = 5 ∧
    (pBuf.adjustBuffer 5).1.buffer.numberOfChannels = 2 ∧
    (((pBuf.adjustBuffer 5).1.buffer.channels[0]?).getD [])[1]? = some 2 ∧
    (((pBuf.adjustBuffer 5).1.buffer.channels[1]?).getD [])[4]? = some 0 := by
  have h := adjustBuffer_spec pBuf 5 rfl ?hunif
  case hunif =>
    intro ch hch
    rw [show pBuf.buffer.channels = [[1, 2, 3], [4, 5, 6]] from rfl] at hch
    rcases List.mem_cons.1 hch with rfl | h2
    · rfl
    · rcases List.mem_cons.1 h2 with rfl | h3
      · rfl
      · exact absurd h3 (List.not_mem_nil _)
  refine ⟨h.1, h.2.1, ?_, ?_⟩
  · have h6 := h.2.2.2.2.2 0 1 (by norm_num [pBuf]) (by norm_num)
    simpa [pBuf] using h6
  · have h6 := h.2.2.2.2.2 1 4 (by norm_num [pBuf]) (by norm_num)
    simpa [pBuf] using h6

/-! ### Claims about Group.sync -/

/- After the apply pass at a forced length, every descendant Playback
holds a buffer of exactly that length (mutual induction over the tree). -/
mutual
theorem treeLeafLens_syncTreeAt (L : ℕ) : (t : ENode) →
    ∀ l ∈ treeLeafLens (syncTreeAt L t), l = L
  | ENode.playback p => by
    intro l hl
    simp only [syncTreeAt, treeLeafLens, List.mem_singleton] at hl
    simpa [Playback.adjustBuffer] using hl
  | ENode.group ss => by
    intro l hl
    simp only [syncTreeAt, treeLeafLens] at hl
    exact listLeafLens_syncListAt L ss l hl
theorem listLeafLens_syncListAt (L : ℕ) : (ts : List ENode) →
    ∀ l ∈ listLeafLens (syncListAt L ts), l = L
  | [] => by simp [syncListAt, listLeafLens]
  | t :: ts => by
    intro l hl
    simp only [syncListAt, listLeafLens, List.mem_append] at hl
    rcases hl with h | h
    · exact treeLeafLens_syncTreeAt L t l h
    · exact listLeafLens_syncListAt L ts l h
end

/-- A stopped `Playback` holding a 1-channel silent buffer of `n` frames. -/
def pb (n : ℕ) : Playback :=
  { buffer := createBuffer 1 n 44100, playing := false,
    startTime := 0, pauseTime := 0, loop := false }

/-- The example tree of C8: playbacks of lengths 1000, 2000, 1500, with
the 2000-frame one nested one level deep in a subgroup. -/
def exampleSources : List ENode :=
  [ENode.playback (pb 1000), ENode.group [ENode.playback (pb 2000)],
   ENode.playback (pb 1500)]

/-- The buffer produced by `adjustBuffer L` has length `L`. -/
theorem adjustBuffer_len (p : Playback) (L : ℕ) : (p.adjustBuffer L).1.buffer.length = L := rfl

/-- Buffer length of the `pb` fixture. -/
theorem pb_len (n : ℕ) : (pb n).buffer.length = n := rfl

/-- C8 (confirmed).  `sync()` with no argument first measures the maximum
buffer length over all descendant Playbacks and then adjusts every
descendant Playback's buffer to it, so all leaves end with that same
length; on the example tree with lengths {1000, 2000, 1500} (2000 nested
one level deep) every leaf ends with length 2000. -/
theorem sync_equalizes_leaf_lengths :
    (∀ sources : List ENode,
      (listLeafLens (groupSync none sources)).all
        (fun l => l == listMaxLen 0 sources) = true) ∧
    listLeafLens exampleSources = [1000, 2000, 1500] ∧
    listMaxLen 0 exampleSources = 2000 ∧
    listLeafLens (groupSync none exampleSources) = [2000, 2000, 2000] := by
  refine ⟨?_, ?_, ?_, ?_⟩
  · intro sources
    rw [List.all_eq_true]
    intro l hl
    rw [beq_iff_eq]
    exact listLeafLens_syncListAt (listMaxLen 0 sources) sources l hl
  · norm_num [exampleSources, listLeafLens, treeLeafLens, pb_len]
  · norm_num [exampleSources, listMaxLen, treeMaxLen, pb_len]
  · norm_num [exampleSources, groupSync, listMaxLen, treeMaxLen, syncListAt, syncTreeAt,
      listLeafLens, treeLeafLens, pb_len, adjustBuffer_len]

/-! ### Claims about constructor wiring -/

/-- Unfolding of the group wiring loop on a cons cell. -/
theorem groupConnectSources_cons (g : AudioGraph) (inp x : ℕ) (rest : List ℕ) :
    groupConnectSources g inp (x :: rest) =
      groupConnectSources (connectNodes (disconnectAll g x) x inp) inp rest := rfl

/-- Rewiring node `x` does not change the outgoing edges of any other
node `o`. -/
theorem filter_out_connect (g : AudioGraph) (inp x o : ℕ) (hox : o ≠ x) :
    (connectNodes (disconnectAll g x) x inp).edges.filter (fun e => e.1 == o) =
      g.edges.filter (fun e => e.1 == o) := by
  simp only [connectNodes, disconnectAll, List.filter_append]
  rw [List.filter_filter]
  have h1 : List.filter (fun e => e.1 == o && e.1 != x) g.edges =
      List.filter (fun e => e.1 == o) g.edges := by
    apply List.filter_congr
    intro e _
    by_cases h : e.1 = o
    · simp [h, bne, hox]
    · simp [h]
  have h2 : List.filter (fun e => e.1 == o) [(x, inp)] = [] := by
    simp [Ne.symm hox]
  rw [h1, h2, List.append_nil]

/-- The group wiring loop leaves the outgoing edges of every node that is
not one of the rewired source outputs untouched. -/
theorem groupConnectSources_frame (inp : ℕ) :
    ∀ (outs : List ℕ) (g : AudioGraph) (o : ℕ), o ∉ outs →
      (groupConnectSources g inp outs).edges.filter (fun e => e.1 == o) =
        g.edges.filter (fun e => e.1 == o) := by
  intro outs
  induction outs with
  | nil => intro g o _; rfl
  | cons x rest ih =>
    intro g o ho
    have hox : o ≠ x := fun h => ho (h ▸ List.mem_cons_self x rest)
    rw [groupConnectSources_cons, ih _ o (fun h => ho (List.mem_cons_of_mem x h)),
        filter_out_connect g inp x o hox]

/-- C9 (confirmed).  The `Group` constructor stores the given sources
array unchanged (insertion order preserved) and, for each source output,
first disconnects everything it was connected to — including the default
connection to the audio destination made by the `Controller` constructor
— and then connects it to the group's input: afterwards each source
output has exactly the single outgoing edge to the group input. -/
theorem groupInit_rewires_sources :
    ∀ (g : AudioGraph) (inp : ℕ) (outs : List ℕ) (o : ℕ), o ∈ outs →
      (groupInit g inp outs).1.sources = outs ∧
      ((groupInit g inp outs).2.edges.filter (fun e => e.1 == o)) = [(o, inp)] := by
  intro g inp outs
  induction outs generalizing g with
  | nil => intro o ho; exact absurd ho (List.not_mem_nil o)
  | cons x rest ih =>
    intro o ho
    refine ⟨rfl, ?_⟩
    show (groupConnectSources g inp (x :: rest)).edges.filter (fun e => e.1 == o) = [(o, inp)]
    rw [groupConnectSources_cons]
    by_cases hrest : o ∈ rest
    · exact (ih _ o hrest).2
    · have hox : o = x := by
        rcases List.mem_cons.1 ho with h | h
        · exact h
        · exact absurd h hrest
      subst hox
      rw [groupConnectSources_frame inp rest _ o hrest]
      simp only [connectNodes, disconnectAll, List.filter_append, List.filter_filter]
      have h1 : List.filter (fun e => e.1 == o && e.1 != o) g.edges = [] := by
        rw [List.filter_eq_nil_iff]
        intro e _
        by_cases h : e.1 = o <;> simp [h]
      have h2 : List.filter (fun e => e.1 == o) [(o, inp)] = [(o, inp)] := by simp
      rw [h1, h2, List.nil_append]

/-- Witness for C9: a controller whose analyser output (node 6) holds the
default connection to the destination (node 0) is wrapped in a group with
input node 7; afterwards node 6's only outgoing edge leads to 7. -/
theorem groupInit_rewires_sources_witness :
    (groupInit (controllerInit ⟨[]⟩ 0 5 6).2 7 [6]).1.sources = [6] ∧
    ((groupInit (controllerInit ⟨[]⟩ 0 5 6).2 7 [6]).2.edges.filter
      (fun e => e.1 == 6)) = [(6, 7)] :=
  groupInit_rewires_sources _ 7 [6] 6 (List.mem_singleton.2 rfl)

/-- C10 (confirmed).  The `Controller` constructor wires its gain node
into its own analyser and the analyser's output to the global context
destination, so a freshly constructed node is routed to the audio output
with no explicit `connect` call. -/
theorem controller_init_routes_to_destination :
    ∀ (g : AudioGraph) (dest gid aid : ℕ),
      (gid, aid) ∈ ((controllerInit g dest gid aid).2).edges ∧
      (aid, dest) ∈ ((controllerInit g dest gid aid).2).edges ∧
      (controllerInit g dest gid aid).1 = ⟨gid, aid⟩ := by
  intro g dest gid aid
  refine ⟨?_, ?_, rfl⟩ <;> simp [controllerInit, connectNodes]

end Euphony
